import Mathlib

/-!
Verification development for the geospatial-python repository.

The repository's core script (`src/forest_stands_stats.py`) derives an
approximate bare-earth terrain model (`dtm_approx`) from an elevation raster
via `scipy.ndimage.grey_opening`, a canopy-height model (`chm`) as the
elementwise difference, aggregates both rasters per polygon with
`rasterstats.zonal_stats`, and joins the aggregates onto the polygon table.
The dashboard script (`src/streamlit_app.py`) contributes the color-ramp
function `height_to_color`.

Rasters are embedded as total functions `ℤ → ℤ → ℚ` together with explicit
bounds `n` (rows) and `m` (columns); only values at indices
`0 ≤ i < n`, `0 ≤ j < m` are meaningful.  scipy's greyscale morphology with
the default boundary mode `reflect` reads out-of-range indices through the
reflection map `(d c b a | a b c d)`; for a structuring window of size
`2*r+1` that fits inside the raster (`2*r+1 ≤ n`), a single reflection fold
suffices, which is what `reflIdx` implements.
-/

namespace ForestStands

/-- scipy `ndimage` boundary mode `reflect`: an out-of-range index is folded
back across the nearest edge (`-1 ↦ 0`, `n ↦ n - 1`).  One fold is enough
whenever the accessed offset is at most the raster extent. -/
def reflIdx (n i : ℤ) : ℤ :=
  if i < 0 then -i - 1 else if n ≤ i then 2 * n - 1 - i else i

/-- Offsets of a flat square structuring element of size `2*r+1`, centered. -/
def winOffs (r : ℕ) : Finset ℤ := Finset.Icc (-(r : ℤ)) (r : ℤ)

lemma zero_mem_winOffs (r : ℕ) : (0 : ℤ) ∈ winOffs r := by
  simp [winOffs]

lemma winSq_nonempty (r : ℕ) : ((winOffs r) ×ˢ (winOffs r)).Nonempty :=
  ⟨(0, 0), Finset.mem_product.2 ⟨zero_mem_winOffs r, zero_mem_winOffs r⟩⟩

/-- Greyscale erosion with a flat `(2*r+1) × (2*r+1)` window: the minimum of
the window values, boundary handled by reflection (scipy `grey_erosion`). -/
def grey_erosion (n m : ℤ) (r : ℕ) (g : ℤ → ℤ → ℚ) (i j : ℤ) : ℚ :=
  ((winOffs r) ×ˢ (winOffs r)).inf' (winSq_nonempty r)
    (fun d => g (reflIdx n (i + d.1)) (reflIdx m (j + d.2)))

/-- Greyscale dilation with a flat `(2*r+1) × (2*r+1)` window: the maximum of
the window values, boundary handled by reflection (scipy `grey_dilation`). -/
def grey_dilation (n m : ℤ) (r : ℕ) (g : ℤ → ℤ → ℚ) (i j : ℤ) : ℚ :=
  ((winOffs r) ×ˢ (winOffs r)).sup' (winSq_nonempty r)
    (fun d => g (reflIdx n (i + d.1)) (reflIdx m (j + d.2)))

/-- `grey_opening(dsm, size=(15,15))` from `forest_stands_stats.py`, with the
window size generalised to `2*r+1`: erosion followed by dilation. -/
def grey_opening (n m : ℤ) (r : ℕ) (g : ℤ → ℤ → ℚ) : ℤ → ℤ → ℚ :=
  grey_dilation n m r (grey_erosion n m r g)

lemma reflIdx_id (n i : ℤ) (h0 : 0 ≤ i) (h1 : i < n) : reflIdx n i = i := by
  unfold reflIdx
  split_ifs <;> omega

/-- The reflected index of an in-range cell shifted by at most `r` stays in
range and within distance `r` of the original cell (for a window that fits,
`r ≤ n`). -/
lemma reflIdx_close (n i d r : ℤ) (h0 : 0 ≤ i) (h1 : i < n) (hr : r ≤ n)
    (hd1 : -r ≤ d) (hd2 : d ≤ r) :
    0 ≤ reflIdx n (i + d) ∧ reflIdx n (i + d) < n ∧
      i - r ≤ reflIdx n (i + d) ∧ reflIdx n (i + d) ≤ i + r := by
  unfold reflIdx
  split_ifs <;> omega

/-- Anti-extensivity helper: the opened grid is elementwise at most the input
grid at every in-range cell, provided the window fits inside the raster. -/
lemma opening_le_self (n m : ℤ) (r : ℕ) (g : ℤ → ℤ → ℚ) (i j : ℤ)
    (hn : 2 * (r : ℤ) + 1 ≤ n) (hm : 2 * (r : ℤ) + 1 ≤ m)
    (hi0 : 0 ≤ i) (hi1 : i < n) (hj0 : 0 ≤ j) (hj1 : j < m) :
    grey_opening n m r g i j ≤ g i j := by
  unfold grey_opening grey_dilation
  apply Finset.sup'_le
  rintro ⟨d1, d2⟩ hd
  simp only [Finset.mem_product, winOffs, Finset.mem_Icc] at hd
  obtain ⟨⟨hd1l, hd1r⟩, hd2l, hd2r⟩ := hd
  have hrn : (r : ℤ) ≤ n := by omega
  have hrm : (r : ℤ) ≤ m := by omega
  obtain ⟨hp0, hp1, hp2, hp3⟩ := reflIdx_close n i d1 r hi0 hi1 hrn hd1l hd1r
  obtain ⟨hq0, hq1, hq2, hq3⟩ := reflIdx_close m j d2 r hj0 hj1 hrm hd2l hd2r
  unfold grey_erosion
  have hmem : ((i - reflIdx n (i + d1), j - reflIdx m (j + d2)) : ℤ × ℤ) ∈
      (winOffs r) ×ˢ (winOffs r) := by
    rw [Finset.mem_product, winOffs, Finset.mem_Icc, Finset.mem_Icc]
    refine ⟨⟨by omega, by omega⟩, by omega, by omega⟩
  refine le_trans (Finset.inf'_le _ hmem) ?_
  have e1 : reflIdx n (i + d1) + (i - reflIdx n (i + d1)) = i := by ring
  have e2 : reflIdx m (j + d2) + (j - reflIdx m (j + d2)) = j := by ring
  rw [e1, e2, reflIdx_id n i hi0 hi1, reflIdx_id m j hj0 hj1]

/-- Extensivity helper (dual of `opening_le_self`): erosion after dilation is
elementwise at least the input grid at every in-range cell. -/
lemma le_erosion_dilation (n m : ℤ) (r : ℕ) (g : ℤ → ℤ → ℚ) (i j : ℤ)
    (hn : 2 * (r : ℤ) + 1 ≤ n) (hm : 2 * (r : ℤ) + 1 ≤ m)
    (hi0 : 0 ≤ i) (hi1 : i < n) (hj0 : 0 ≤ j) (hj1 : j < m) :
    g i j ≤ grey_erosion n m r (grey_dilation n m r g) i j := by
  unfold grey_erosion
  apply Finset.le_inf'
  rintro ⟨d1, d2⟩ hd
  simp only [Finset.mem_product, winOffs, Finset.mem_Icc] at hd
  obtain ⟨⟨hd1l, hd1r⟩, hd2l, hd2r⟩ := hd
  have hrn : (r : ℤ) ≤ n := by omega
  have hrm : (r : ℤ) ≤ m := by omega
  obtain ⟨hp0, hp1, hp2, hp3⟩ := reflIdx_close n i d1 r hi0 hi1 hrn hd1l hd1r
  obtain ⟨hq0, hq1, hq2, hq3⟩ := reflIdx_close m j d2 r hj0 hj1 hrm hd2l hd2r
  unfold grey_dilation
  have hmem : ((i - reflIdx n (i + d1), j - reflIdx m (j + d2)) : ℤ × ℤ) ∈
      (winOffs r) ×ˢ (winOffs r) := by
    rw [Finset.mem_product, winOffs, Finset.mem_Icc, Finset.mem_Icc]
    refine ⟨⟨by omega, by omega⟩, by omega, by omega⟩
  refine le_trans ?_ (Finset.le_sup' _ hmem)
  have e1 : reflIdx n (i + d1) + (i - reflIdx n (i + d1)) = i := by ring
  have e2 : reflIdx m (j + d2) + (j - reflIdx m (j + d2)) = j := by ring
  rw [e1, e2, reflIdx_id n i hi0 hi1, reflIdx_id m j hj0 hj1]

/-- Erosion is monotone in the grid, for grids compared at in-range cells. -/
lemma grey_erosion_mono (n m : ℤ) (r : ℕ) (A B : ℤ → ℤ → ℚ)
    (hrn : (r : ℤ) ≤ n) (hrm : (r : ℤ) ≤ m)
    (hAB : ∀ x y, 0 ≤ x → x < n → 0 ≤ y → y < m → A x y ≤ B x y)
    (i j : ℤ) (hi0 : 0 ≤ i) (hi1 : i < n) (hj0 : 0 ≤ j) (hj1 : j < m) :
    grey_erosion n m r A i j ≤ grey_erosion n m r B i j := by
  unfold grey_erosion
  apply Finset.le_inf'
  rintro ⟨d1, d2⟩ hd
  have hd' := hd
  simp only [Finset.mem_product, winOffs, Finset.mem_Icc] at hd'
  obtain ⟨⟨hd1l, hd1r⟩, hd2l, hd2r⟩ := hd'
  obtain ⟨hp0, hp1, _, _⟩ := reflIdx_close n i d1 r hi0 hi1 hrn hd1l hd1r
  obtain ⟨hq0, hq1, _, _⟩ := reflIdx_close m j d2 r hj0 hj1 hrm hd2l hd2r
  exact le_trans (Finset.inf'_le _ hd) (hAB _ _ hp0 hp1 hq0 hq1)

/-- At in-range cells, eroding the opened grid gives back the erosion of the
original grid: the core step behind idempotence of the opening. -/
lemma erosion_opening_eq (n m : ℤ) (r : ℕ) (g : ℤ → ℤ → ℚ) (i j : ℤ)
    (hn : 2 * (r : ℤ) + 1 ≤ n) (hm : 2 * (r : ℤ) + 1 ≤ m)
    (hi0 : 0 ≤ i) (hi1 : i < n) (hj0 : 0 ≤ j) (hj1 : j < m) :
    grey_erosion n m r (grey_opening n m r g) i j = grey_erosion n m r g i j := by
  have hrn : (r : ℤ) ≤ n := by omega
  have hrm : (r : ℤ) ≤ m := by omega
  refine le_antisymm ?_ ?_
  · exact grey_erosion_mono n m r (grey_opening n m r g) g hrn hrm
      (fun x y hx0 hx1 hy0 hy1 => opening_le_self n m r g x y hn hm hx0 hx1 hy0 hy1)
      i j hi0 hi1 hj0 hj1
  · exact le_erosion_dilation n m r (grey_erosion n m r g) i j hn hm hi0 hi1 hj0 hj1

/-- Idempotence helper: opening the opened grid changes nothing at in-range
cells, provided the window fits inside the raster. -/
lemma opening_idem (n m : ℤ) (r : ℕ) (g : ℤ → ℤ → ℚ) (i j : ℤ)
    (hn : 2 * (r : ℤ) + 1 ≤ n) (hm : 2 * (r : ℤ) + 1 ≤ m)
    (hi0 : 0 ≤ i) (hi1 : i < n) (hj0 : 0 ≤ j) (hj1 : j < m) :
    grey_opening n m r (grey_opening n m r g) i j = grey_opening n m r g i j := by
  have hrn : (r : ℤ) ≤ n := by omega
  have hrm : (r : ℤ) ≤ m := by omega
  show grey_dilation n m r (grey_erosion n m r (grey_opening n m r g)) i j =
    grey_dilation n m r (grey_erosion n m r g) i j
  unfold grey_dilation
  apply Finset.sup'_congr _ rfl
  rintro ⟨d1, d2⟩ hd
  simp only [Finset.mem_product, winOffs, Finset.mem_Icc] at hd
  obtain ⟨⟨hd1l, hd1r⟩, hd2l, hd2r⟩ := hd
  obtain ⟨hp0, hp1, _, _⟩ := reflIdx_close n i d1 r hi0 hi1 hrn hd1l hd1r
  obtain ⟨hq0, hq1, _, _⟩ := reflIdx_close m j d2 r hj0 hj1 hrm hd2l hd2r
  exact erosion_opening_eq n m r g _ _ hn hm hp0 hp1 hq0 hq1

/-- `chm = dsm - dtm_approx` from `forest_stands_stats.py`: the canopy-height
grid is the elementwise difference between the raw elevation grid and its
morphological opening. -/
def chm (n m : ℤ) (r : ℕ) (g : ℤ → ℤ → ℚ) : ℤ → ℤ → ℚ :=
  fun i j => g i j - grey_opening n m r g i j

/-- Modelled from the spec: "No-data cells must propagate as no-data rather
than participating in the window minimum/maximum comparisons."  The source
applies `grey_opening` to the raw band with no masking, so this masked
erosion exists only to state what the spec demands: a cell holding the
no-data sentinel `nd` stays `nd`, and valid cells take the window minimum
over valid neighbours only. -/
def erosionNoData (nd : ℚ) (n m : ℤ) (r : ℕ) (g : ℤ → ℤ → ℚ) (i j : ℤ) : ℚ :=
  if g (reflIdx n i) (reflIdx m j) = nd then nd
  else
    (insert ((0 : ℤ), (0 : ℤ))
        (((winOffs r) ×ˢ (winOffs r)).filter
          (fun d => g (reflIdx n (i + d.1)) (reflIdx m (j + d.2)) ≠ nd))).inf'
      (Finset.insert_nonempty _ _)
      (fun d => g (reflIdx n (i + d.1)) (reflIdx m (j + d.2)))

/-- Modelled from the spec: the dilation half of a no-data-aware opening,
dual to `erosionNoData`. -/
def dilationNoData (nd : ℚ) (n m : ℤ) (r : ℕ) (g : ℤ → ℤ → ℚ) (i j : ℤ) : ℚ :=
  if g (reflIdx n i) (reflIdx m j) = nd then nd
  else
    (insert ((0 : ℤ), (0 : ℤ))
        (((winOffs r) ×ˢ (winOffs r)).filter
          (fun d => g (reflIdx n (i + d.1)) (reflIdx m (j + d.2)) ≠ nd))).sup'
      (Finset.insert_nonempty _ _)
      (fun d => g (reflIdx n (i + d.1)) (reflIdx m (j + d.2)))

/-- Modelled from the spec: opening with no-data propagation — erosion then
dilation, each propagating the sentinel `nd` and excluding it from the
min/max comparisons. -/
def openingNoData (nd : ℚ) (n m : ℤ) (r : ℕ) (g : ℤ → ℤ → ℚ) : ℤ → ℤ → ℚ :=
  dilationNoData nd n m r (erosionNoData nd n m r g)

/-- Cells of the `n × m` raster whose center falls inside the polygon, the
polygon abstracted as its decidable cell-center membership predicate. -/
def coverCells (n m : ℤ) (inPoly : ℤ × ℤ → Bool) : Finset (ℤ × ℤ) :=
  ((Finset.Icc 0 (n - 1)) ×ˢ (Finset.Icc 0 (m - 1))).filter (fun c => inPoly c = true)

/-- Modelled from the spec: `rasterstats.zonal_stats(.., stats=["mean"])` is
library code, not under `src/`; per the spec it returns, for each polygon,
the mean of the raster cells whose center lies within the polygon, and a
null marker when no cell is attributable.  It never raises for an empty
overlap, which the total `Option` result captures. -/
def zonalMean (n m : ℤ) (g : ℤ → ℤ → ℚ) (inPoly : ℤ × ℤ → Bool) : Option ℚ :=
  if (coverCells n m inPoly).Nonempty then
    some (((coverCells n m inPoly).sum (fun c => g c.1 c.2)) /
      ((coverCells n m inPoly).card : ℚ))
  else none

/-- Pipeline error taxonomy relevant to the CRS reconciler. -/
inductive PipeError
  | MissingCRS
deriving DecidableEq

/-- The CRS reconciliation step of `forest_stands_stats.py`:
`if stands.crs != raster_crs: stands = stands.to_crs(raster_crs)`.
CRSs are abstract identifiers (`Option ℕ`, `none` = naive/no CRS); `T v r`
is the coordinate transformation from CRS `v` to CRS `r`; a feature is a
`StandID` paired with its list of coordinates.  `to_crs` raises when the
source frame is naive or the target is `None`, modelled as `MissingCRS`;
it is only reached when the two CRSs differ. -/
def reconcileCRS (T : ℕ → ℕ → (ℚ × ℚ) → (ℚ × ℚ)) (vcrs rcrs : Option ℕ)
    (fs : List (ℤ × List (ℚ × ℚ))) : Except PipeError (List (ℤ × List (ℚ × ℚ))) :=
  if vcrs = rcrs then Except.ok fs
  else
    match vcrs, rcrs with
    | some v, some r => Except.ok (fs.map (fun f => (f.1, f.2.map (T v r))))
    | _, _ => Except.error PipeError.MissingCRS

/-- The join step of `forest_stands_stats.py`:
`stands["mean_elev"] = [feat["mean"] for feat in stats]` assigns the list of
aggregate values to the polygon table as a plain list, pairing the i-th
value with the i-th polygon — a positional zip, with no identifier
matching. -/
def setColumn (ids : List ℤ) (vals : List (Option ℚ)) : List (ℤ × Option ℚ) :=
  ids.zip vals

/-- The three files persisted by `forest_stands_stats.py`. -/
inductive Artifact
  | dtmFile
  | chmFile
  | vectorFile
deriving DecidableEq

/-- The top-level statements of `forest_stands_stats.py`, in source order. -/
inductive Stage
  | loadStands
  | readCRS
  | reconcile
  | readDSM
  | openDTM
  | writeDTM
  | computeCHM
  | writeCHM
  | zonalElev
  | joinElev
  | zonalCHM
  | joinCHM
  | writeVector
deriving DecidableEq

/-- Which stage persists which file: `rasterio.open(.., "w")` writes at the
`writeDTM` and `writeCHM` stages, `stands.to_file` at `writeVector`. -/
def stageWrites : Stage → List Artifact
  | Stage.writeDTM => [Artifact.dtmFile]
  | Stage.writeCHM => [Artifact.chmFile]
  | Stage.writeVector => [Artifact.vectorFile]
  | _ => []

/-- Source order of the script's stages. -/
def stageOrder : List Stage :=
  [Stage.loadStands, Stage.readCRS, Stage.reconcile, Stage.readDSM,
   Stage.openDTM, Stage.writeDTM, Stage.computeCHM, Stage.writeCHM,
   Stage.zonalElev, Stage.joinElev, Stage.zonalCHM, Stage.joinCHM,
   Stage.writeVector]

/-- Running a list of stages as a Python script does: an uncaught exception
at a stage aborts everything after it, while the files written by already
completed stages stay on disk. -/
def runStages (failing : Stage → Bool) : List Stage → List Artifact
  | [] => []
  | s :: rest =>
    if failing s then [] else stageWrites s ++ runStages failing rest

/-- The artifacts that end up persisted by one run of the script, given
which stages fail. -/
def runPipeline (failing : Stage → Bool) : List Artifact :=
  runStages failing stageOrder

/-- Raster metadata as carried by rasterio's `src.meta`: affine transform,
CRS and grid dimensions. -/
structure RasterMeta where
  transform : ℚ × ℚ × ℚ × ℚ × ℚ × ℚ
  crs : ℕ
  height : ℤ
  width : ℤ

/-- A single-band raster file: metadata plus the band. -/
structure RasterFile where
  meta : RasterMeta
  band : ℤ → ℤ → ℚ

/-- The `N61E025_dtm_approx.tif` write: `rasterio.open(.., "w", **meta)` with
`meta = src.meta`, band `grey_opening(dsm, size=(15,15))`. -/
def dtm_approx_file (src : RasterFile) (r : ℕ) : RasterFile :=
  ⟨src.meta, grey_opening src.meta.height src.meta.width r src.band⟩

/-- The `N61E025_chm.tif` write: `rasterio.open(.., "w", **meta)` with the
same `meta = src.meta`, band `dsm - dtm_approx`. -/
def chm_file (src : RasterFile) (r : ℕ) : RasterFile :=
  ⟨src.meta, chm src.meta.height src.meta.width r src.band⟩

/-- Python `int()`: truncation toward zero, on exact rationals. -/
def pyInt (q : ℚ) : ℤ :=
  if 0 ≤ q then ⌊q⌋ else -⌊-q⌋

/-- `height_to_color` from `streamlit_app.py`: green-to-red ramp over the
canopy-height range `[minH, maxH]`, guarded so the ratio is `0` unless
`maxH > minH`. -/
def height_to_color (minH maxH h : ℚ) : List ℤ :=
  [pyInt (255 * (if maxH > minH then (h - minH) / (maxH - minH) else 0)),
   pyInt (255 * (1 - (if maxH > minH then (h - minH) / (maxH - minH) else 0))),
   50, 180]

/-- The 3×3 example grid with a low no-data sentinel at the center and valid
elevation 100 elsewhere. -/
def exGrid : ℤ → ℤ → ℚ :=
  fun i j => if i = 1 ∧ j = 1 then -9999 else 100

set_option maxRecDepth 100000

/-- Claim C1 (counterexample): the join step is positional, not
identifier-based.  With polygons `StandID = 1, 2`, the aggregate list
`[5, 7]` assigns `5` to stand `1`, while the permuted list `[7, 5]` assigns
`7` to stand `1`: permuting the order in which aggregates were computed
changes which polygon receives which value. -/
theorem setColumn_shuffle_counterexample :
    (setColumn [1, 2] [some 5, some 7]).lookup 1 = some (some 5) ∧
    (setColumn [1, 2] [some 7, some 5]).lookup 1 = some (some 7) ∧
    (some (5 : ℚ) : Option ℚ) ≠ some 7 := by
  decide

/-- Claim C1 (amended): the pipeline's join step assigns aggregate values to
polygons purely by positional index — the i-th aggregate goes to the i-th
polygon regardless of `StandID` — so it is correct only when the aggregator
emits results in exactly the polygon order, and permuting the aggregates
changes which polygon receives which value. -/
theorem setColumn_positional (ids : List ℤ) (vals : List (Option ℚ)) (i : ℕ)
    (h1 : i < ids.length) (h2 : i < vals.length) :
    (setColumn ids vals).get? i = some (ids.get ⟨i, h1⟩, vals.get ⟨i, h2⟩) := by
  induction ids generalizing vals i with
  | nil => exact absurd h1 (by simp)
  | cons a as ih =>
    cases vals with
    | nil => exact absurd h2 (by simp)
    | cons b bs =>
      cases i with
      | zero => rfl
      | succ k =>
        simpa [setColumn, List.zip] using ih bs k (by simpa using h1) (by simpa using h2)

/-- Claim C1 (witness): the positional join at a concrete input. -/
theorem setColumn_positional_witness :
    (setColumn [1, 2] [some 5, some 7]).get? 0 = some (1, some 5) :=
  setColumn_positional [1, 2] [some 5, some 7] 0 (by decide) (by decide)

/-- Claim C2: for every raster grid and every valid structuring window
(size `2*r+1` fitting in both raster dimensions), the morphological opening
used as the terrain approximator is anti-extensive: every in-range cell of
the opened grid is at most the corresponding cell of the input grid. -/
theorem grey_opening_antiextensive (n m : ℤ) (r : ℕ) (g : ℤ → ℤ → ℚ) (i j : ℤ)
    (hn : 2 * (r : ℤ) + 1 ≤ n) (hm : 2 * (r : ℤ) + 1 ≤ m)
    (hi0 : 0 ≤ i) (hi1 : i < n) (hj0 : 0 ≤ j) (hj1 : j < m) :
    grey_opening n m r g i j ≤ g i j :=
  opening_le_self n m r g i j hn hm hi0 hi1 hj0 hj1

/-- Claim C2 (witness): anti-extensivity at a concrete grid and cell. -/
theorem grey_opening_antiextensive_witness :
    grey_opening 3 3 1 (fun _ _ => (5 : ℚ)) 0 0 ≤ 5 :=
  grey_opening_antiextensive 3 3 1 (fun _ _ => (5 : ℚ)) 0 0
    (by decide) (by decide) (by decide) (by decide) (by decide) (by decide)

/-- Claim C3: the canopy grid is exactly the elementwise difference
`raw − terrain_approx`, and at every in-range cell (for a window that fits)
the canopy value is nonnegative. -/
theorem chm_is_difference_and_nonneg (n m : ℤ) (r : ℕ) (g : ℤ → ℤ → ℚ) (i j : ℤ)
    (hn : 2 * (r : ℤ) + 1 ≤ n) (hm : 2 * (r : ℤ) + 1 ≤ m)
    (hi0 : 0 ≤ i) (hi1 : i < n) (hj0 : 0 ≤ j) (hj1 : j < m) :
    chm n m r g i j = g i j - grey_opening n m r g i j ∧ 0 ≤ chm n m r g i j := by
  refine ⟨rfl, ?_⟩
  have hle := opening_le_self n m r g i j hn hm hi0 hi1 hj0 hj1
  unfold chm
  linarith

/-- Claim C3 (witness): the canopy difference at a concrete grid and cell. -/
theorem chm_is_difference_and_nonneg_witness :
    chm 3 3 1 (fun _ _ => (7 : ℚ)) 1 1 = 7 - grey_opening 3 3 1 (fun _ _ => (7 : ℚ)) 1 1 ∧
      0 ≤ chm 3 3 1 (fun _ _ => (7 : ℚ)) 1 1 :=
  chm_is_difference_and_nonneg 3 3 1 (fun _ _ => (7 : ℚ)) 1 1
    (by decide) (by decide) (by decide) (by decide) (by decide) (by decide)

/-- Claim C4 (counterexample): on the 3×3 grid whose center holds the no-data
sentinel `-9999` and whose other cells hold `100`, the source's plain
`grey_opening` disagrees with the spec's no-data-propagating opening at the
valid corner cell `(0,0)`: the sentinel participated in the min/max
comparisons and replaced a valid value. -/
theorem grey_opening_nodata_counterexample :
    grey_opening 3 3 1 exGrid 0 0 ≠ openingNoData (-9999) 3 3 1 exGrid 0 0 ∧
    grey_opening 3 3 1 exGrid 0 0 = -9999 ∧
    openingNoData (-9999) 3 3 1 exGrid 0 0 = 100 ∧
    exGrid 0 0 = 100 := by
  refine ⟨by decide, by decide, by decide, by decide⟩

/-- Claim C4 (amended): the terrain approximator performs no no-data
handling: the sentinel participates in the window min/max comparisons like
any other value, so a single low no-data cell overwrites every in-range cell
of the opened output of the example grid, valid cells included. -/
theorem grey_opening_nodata_participates (i j : ℤ)
    (hi0 : 0 ≤ i) (hi1 : i < 3) (hj0 : 0 ≤ j) (hj1 : j < 3) :
    grey_opening 3 3 1 exGrid i j = -9999 := by
  interval_cases i <;> interval_cases j <;> decide

/-- Claim C4 (witness): the contaminated corner cell. -/
theorem grey_opening_nodata_participates_witness :
    grey_opening 3 3 1 exGrid 0 0 = -9999 :=
  grey_opening_nodata_participates 0 0 (by decide) (by decide) (by decide) (by decide)

/-- Claim C5 (counterexample): when both the vector and the raster lack a
CRS, the source's guard `stands.crs != raster_crs` compares `None` with
`None`, finds them equal, and silently does nothing — it does not fail with
`MissingCRS` although both inputs lack an associated CRS. -/
theorem reconcileCRS_both_none_counterexample :
    reconcileCRS (fun _ _ p => p) none none [(1, [(0, 0)])] =
      Except.ok [(1, [(0, 0)])] := rfl

/-- Claim C5 (amended): the CRS reconciler reprojects every polygon geometry
from `V` to `R` when both CRSs are present and differ, is a no-op whenever
`V = R` — including the case where both inputs lack a CRS, which silently
passes — and fails with `MissingCRS` exactly when one input has a CRS and
the other does not. -/
theorem reconcileCRS_cases (T : ℕ → ℕ → (ℚ × ℚ) → (ℚ × ℚ)) (vcrs rcrs : Option ℕ)
    (fs : List (ℤ × List (ℚ × ℚ))) :
    (vcrs = rcrs → reconcileCRS T vcrs rcrs fs = Except.ok fs) ∧
    (∀ v r, vcrs = some v → rcrs = some r → v ≠ r →
      reconcileCRS T vcrs rcrs fs =
        Except.ok (fs.map (fun f => (f.1, f.2.map (T v r))))) ∧
    (vcrs.isSome ≠ rcrs.isSome →
      reconcileCRS T vcrs rcrs fs = Except.error PipeError.MissingCRS) := by
  refine ⟨fun h => by simp [reconcileCRS, h], ?_, ?_⟩
  · rintro v r rfl rfl hne
    simp [reconcileCRS, hne]
  · intro h
    cases vcrs <;> cases rcrs <;> simp_all [reconcileCRS]

/-- Claim C5 (witness): a vector layer without CRS against a raster with a
CRS fails with `MissingCRS`. -/
theorem reconcileCRS_cases_witness :
    reconcileCRS (fun _ _ p => p) none (some 0) [(1, [(0, 0)])] =
      Except.error PipeError.MissingCRS :=
  (reconcileCRS_cases (fun _ _ p => p) none (some 0) [(1, [(0, 0)])]).2.2 (by decide)

/-- Claim C6: a polygon attributing no raster cell — entirely outside the
raster extent, or too small for any cell center to fall inside it — yields a
null aggregate; the aggregator is a total function, so no exception is
raised and the run is not aborted. -/
theorem zonalMean_empty_overlap (n m : ℤ) (g : ℤ → ℤ → ℚ) (inPoly : ℤ × ℤ → Bool)
    (h : ∀ x y, 0 ≤ x → x ≤ n - 1 → 0 ≤ y → y ≤ m - 1 → inPoly (x, y) = false) :
    zonalMean n m g inPoly = none := by
  have hempty : coverCells n m inPoly = ∅ := by
    rw [coverCells]
    apply Finset.filter_eq_empty_iff.2
    rintro ⟨x, y⟩ hxy
    simp only [Finset.mem_product, Finset.mem_Icc] at hxy
    simp [h x y hxy.1.1 hxy.1.2 hxy.2.1 hxy.2.2]
  simp [zonalMean, hempty]

/-- Claim C6 (witness): a polygon containing no cell center at all. -/
theorem zonalMean_empty_overlap_witness :
    zonalMean 2 2 (fun _ _ => 3) (fun _ => false) = none :=
  zonalMean_empty_overlap 2 2 (fun _ _ => 3) (fun _ => false)
    (fun _ _ _ _ _ _ => rfl)

/-- Claim C7: for every raster grid and structuring window that fits inside
the raster, the morphological opening is idempotent at every in-range cell:
opening the opened grid returns the opened grid. -/
theorem grey_opening_idempotent (n m : ℤ) (r : ℕ) (g : ℤ → ℤ → ℚ) (i j : ℤ)
    (hn : 2 * (r : ℤ) + 1 ≤ n) (hm : 2 * (r : ℤ) + 1 ≤ m)
    (hi0 : 0 ≤ i) (hi1 : i < n) (hj0 : 0 ≤ j) (hj1 : j < m) :
    grey_opening n m r (grey_opening n m r g) i j = grey_opening n m r g i j :=
  opening_idem n m r g i j hn hm hi0 hi1 hj0 hj1

/-- Claim C7 (witness): idempotence at a concrete grid and cell. -/
theorem grey_opening_idempotent_witness :
    grey_opening 3 3 1 (grey_opening 3 3 1 (fun _ _ => (2 : ℚ))) 1 0 =
      grey_opening 3 3 1 (fun _ _ => (2 : ℚ)) 1 0 :=
  grey_opening_idempotent 3 3 1 (fun _ _ => (2 : ℚ)) 1 0
    (by decide) (by decide) (by decide) (by decide) (by decide) (by decide)

/-- Claim C8 (counterexample): a run whose zonal-aggregation stage fails
still leaves both derived raster files on disk — the script writes
`N61E025_dtm_approx.tif` and `N61E025_chm.tif` before aggregation, so an
aborted run does persist partial output. -/
theorem runPipeline_partial_output_counterexample :
    runPipeline (fun s => decide (s = Stage.zonalElev)) =
      [Artifact.dtmFile, Artifact.chmFile] ∧
    runPipeline (fun s => decide (s = Stage.zonalElev)) ≠ ([] : List Artifact) := by
  decide

/-- Claim C8 (amended): a stage failure skips every remaining stage, so
nothing after the failing stage is persisted — in particular the enriched
vector file, written last, never is — but the artifacts persisted by stages
completed before the failure remain: the run's output is exactly the writes
of the stages preceding the first failure. -/
theorem runStages_abort (failing : Stage → Bool) (L1 L2 : List Stage) (s : Stage)
    (hall : ∀ t ∈ L1, failing t = false) (hs : failing s = true) :
    runStages failing (L1 ++ s :: L2) = L1.flatMap stageWrites := by
  induction L1 with
  | nil => simp [runStages, hs]
  | cons t L1 ih =>
    have ht : failing t = false := hall t (List.mem_cons_self t L1)
    have ih' := ih (fun u hu => hall u (List.mem_cons_of_mem t hu))
    simp [runStages, ht, ih']

/-- Claim C8 (witness): the run aborted at the elevation-aggregation stage
persists exactly the two raster writes that precede it. -/
theorem runStages_abort_witness :
    runPipeline (fun s => decide (s = Stage.zonalElev)) =
      [Stage.loadStands, Stage.readCRS, Stage.reconcile, Stage.readDSM,
       Stage.openDTM, Stage.writeDTM, Stage.computeCHM,
       Stage.writeCHM].flatMap stageWrites :=
  runStages_abort (fun s => decide (s = Stage.zonalElev))
    [Stage.loadStands, Stage.readCRS, Stage.reconcile, Stage.readDSM,
     Stage.openDTM, Stage.writeDTM, Stage.computeCHM, Stage.writeCHM]
    [Stage.joinElev, Stage.zonalCHM, Stage.joinCHM, Stage.writeVector]
    Stage.zonalElev (by decide) (by decide)

/-- Claim C9: both derived rasters are written with `**meta` taken verbatim
from the source raster, so their affine transform, CRS and dimensions equal
the source's by construction, for every run and with no runtime check. -/
theorem derived_rasters_inherit_meta (src : RasterFile) (r : ℕ) :
    (dtm_approx_file src r).meta = src.meta ∧ (chm_file src r).meta = src.meta :=
  ⟨rfl, rfl⟩

/-- Claim C10: `height_to_color` never divides by zero: when the maximum
mean canopy height equals the minimum (as with a single feature), the guard
`max_h > min_h` fails, the ratio is taken to be `0`, and the function
returns the fixed color `[0, 255, 50, 180]`. -/
theorem height_to_color_degenerate (minH maxH h : ℚ) (hEq : maxH = minH) :
    height_to_color minH maxH h = [0, 255, 50, 180] := by
  subst hEq
  norm_num [height_to_color, pyInt]

/-- Claim C10 (witness): a single-feature range, `min = max = 5`. -/
theorem height_to_color_degenerate_witness :
    height_to_color 5 5 5 = [0, 255, 50, 180] :=
  height_to_color_degenerate 5 5 5 rfl

end ForestStands
